import Mathlib

/-!
Verification development for the luxonis word-guessing game server.

The embedding follows the Rust sources:
* src/server_state.rs   — `MatchState`, `Match`, `ServerState` and their methods;
* src/server_connection.rs — `send_message` and `react_to_client_msg` (the
  dispatch handler the specification's claims cite);
* src/protocol.rs + src/connection.rs — the wire messages, their MessagePack
  encoding (rmp-serde's binary serializer) and the newline framing used by
  `handle_stream`.

Modelling conventions:
* `Uuid` is an opaque identifier, modelled as `Nat`; `Uuid::new_v4` mints a
  fresh id, modelled by a counter `next_uuid` threaded through `ServerState`
  (freshness is the only property the code relies on).  On the wire a `Uuid`
  is its 16 raw bytes (the uuid crate serializes `as_bytes()`).
* Rust `String` is modelled as its UTF-8 byte list (`RStr`); `u32` arithmetic
  is `Nat` with explicit reduction modulo `2 ^ 32` where the code increments
  or casts.
* `HashSet<Uuid>` is a `List Uuid` kept duplicate-free by `addSet`;
  `HashMap<Uuid, Match>` is an association list.  Iteration order of the Rust
  hash containers is unspecified, so list order here is one determinization.
* The connection registry (`ActiveConnections`) only matters to the handler
  through `get_mut(player_id)` being present or absent, so it is modelled as
  the list of registered player ids.  `send_message` fails exactly when the
  target id is absent; the `?` operator in `react_to_client_msg` then aborts
  the rest of the handler, which the model mirrors with an `ok` flag and by
  returning the partially mutated state and the sends made so far.
-/

namespace Luxonis

/-- Opaque player / match identifier (Rust `uuid::Uuid`). -/
abbrev Uuid := Nat

/-- Rust `String`, modelled as its UTF-8 byte list. -/
abbrev RStr := List Nat

/-- Match lifecycle states, from `server_state.rs`. -/
inductive MatchState where
  | Active
  | GivenUp
  | Solved
  | Cancelled
  deriving DecidableEq, Repr

/-- One challenger/guesser pairing, from `server_state.rs`. -/
structure Match where
  id : Uuid
  challenger : Uuid
  guesser : Uuid
  attempts : Nat
  hints : List RStr
  guess_word : RStr
  state : MatchState
  deriving DecidableEq, Repr

/-- Rust `Match::new((challenger, guesser), guess_word)`; the freshly minted
`Uuid::new_v4` is passed in explicitly (see module conventions). -/
def Match.new (challenger guesser : Uuid) (guess_word : RStr) (id : Uuid) : Match :=
  { id := id
    challenger := challenger
    guesser := guesser
    attempts := 0
    hints := []
    guess_word := guess_word
    state := MatchState.Active }

/-- Rust `Match::attempt`: increment the `u32` counter (wrapping), and set
`Solved` exactly when the guess equals the stored word. -/
def Match.attempt (m : Match) (guess : RStr) : Match :=
  let m1 : Match := { m with attempts := (m.attempts + 1) % 2 ^ 32 }
  if guess = m.guess_word then { m1 with state := MatchState.Solved } else m1

/-- Rust `Match::add_hint`: append the hint. -/
def Match.add_hint (m : Match) (hint : RStr) : Match :=
  { m with hints := m.hints ++ [hint] }

/-- Rust `Match::give_up`: unconditionally set the state to `GivenUp`. -/
def Match.give_up (m : Match) : Match :=
  { m with state := MatchState.GivenUp }

/-- Rust `Match::cancel`: unconditionally set the state to `Cancelled`. -/
def Match.cancel (m : Match) : Match :=
  { m with state := MatchState.Cancelled }

/-- The value `active_match.hints.len() as u32` that the handler puts into
outbound messages. -/
def hintCount (m : Match) : Nat := m.hints.length % 2 ^ 32

/-- HashSet insert: membership-preserving, no duplicates. -/
def addSet (x : Uuid) (l : List Uuid) : List Uuid :=
  if x ∈ l then l else x :: l

/-- HashSet remove. -/
def removeSet (x : Uuid) (l : List Uuid) : List Uuid :=
  l.filter (fun y => y ≠ x)

/-- HashMap remove, keyed association list. -/
def eraseKey (k : Uuid) (l : List (Uuid × Match)) : List (Uuid × Match) :=
  l.filter (fun p => p.1 ≠ k)

/-- HashMap insert: the inserted binding shadows any previous one. -/
def insertAssoc (k : Uuid) (v : Match) (l : List (Uuid × Match)) : List (Uuid × Match) :=
  (k, v) :: eraseKey k l

/-- In-place update through `get_mut`: replace the value stored at `k`. -/
def updateAssoc (k : Uuid) (v : Match) (l : List (Uuid × Match)) : List (Uuid × Match) :=
  l.map (fun p => if p.1 = k then (k, v) else p)

/-- Rust `ServerState` plus the fresh-id counter modelling `Uuid::new_v4`. -/
structure ServerState where
  available_players : List Uuid
  active_matches : List (Uuid × Match)
  finished_matches : List (Uuid × Match)
  next_uuid : Nat
  deriving DecidableEq, Repr

instance : Inhabited ServerState := ⟨⟨[], [], [], 0⟩⟩

/-- Rust `ServerState::default()`. -/
def ServerState.default : ServerState := ⟨[], [], [], 0⟩

/-- Rust `ServerState::add_available_player`. -/
def ServerState.add_available_player (s : ServerState) (player_id : Uuid) : ServerState :=
  { s with available_players := addSet player_id s.available_players }

/-- Rust `ServerState::remove_available_player`. -/
def ServerState.remove_available_player (s : ServerState) (player_id : Uuid) : ServerState :=
  { s with available_players := removeSet player_id s.available_players }

/-- Rust `ServerState::create_new_match`: fails when either participant is not
available (checking `player_duo.1` first, as the source does); otherwise
inserts a fresh `Active` match and removes both participants from the
available set. -/
def ServerState.create_new_match (s : ServerState) (player_duo : Uuid × Uuid)
    (guess_word : RStr) : Option Uuid × ServerState :=
  if player_duo.2 ∉ s.available_players ∨ player_duo.1 ∉ s.available_players then
    (none, s)
  else
    let new_match := Match.new player_duo.1 player_duo.2 guess_word s.next_uuid
    (some new_match.id,
      { s with
          active_matches := insertAssoc new_match.id new_match s.active_matches
          available_players :=
            removeSet player_duo.2 (removeSet player_duo.1 s.available_players)
          next_uuid := s.next_uuid + 1 })

/-- Rust `ServerState::finish_match`: if the id is active, move the match to
finished storage and return both participants (guesser first, as the source
does) to the available set; otherwise do nothing. -/
def ServerState.finish_match (s : ServerState) (match_id : Uuid) : ServerState :=
  match List.lookup match_id s.active_matches with
  | some active_match =>
      { s with
          active_matches := eraseKey match_id s.active_matches
          available_players :=
            addSet active_match.challenger (addSet active_match.guesser s.available_players)
          finished_matches := insertAssoc match_id active_match s.finished_matches }
  | none => s

/-- The `BadRequest` reasons of `protocol.rs`. -/
inductive ClientRequestError where
  | CannotCreateMatch
  | Match404
  | PermissionDenied
  deriving DecidableEq, Repr

/-- Server-to-client wire messages of `protocol.rs`. -/
inductive ServerMessage where
  | AskPassword
  | WrongPassword
  | AssignId (player : Uuid)
  | BadRequest (err : ClientRequestError)
  | ListOpponents (ids : List Uuid)
  | MatchAccepted (match_id : Uuid)
  | MatchStarted (match_id : Uuid)
  | MatchAttempt (match_id : Uuid) (attempts : Nat) (hints : Nat) (latest : RStr)
  | IncorrectGuess (match_id : Uuid) (attempts : Nat)
  | MatchHint (match_id : Uuid) (hint : RStr)
  | MatchEnded (match_id : Uuid) (attempts : Nat) (hints : Nat) (solved : Bool)
  | Disconnect
  deriving DecidableEq, Repr

/-- Client-to-server wire messages of `protocol.rs`. -/
inductive ClientMessage where
  | AnswerPassword (password : RStr)
  | GetOpponents
  | RequestMatch (opponent : Uuid) (guess_word : RStr)
  | GuessAttempt (match_id : Uuid) (guess : RStr)
  | SendHint (match_id : Uuid) (hint : RStr)
  | GiveUp (match_id : Uuid)
  | LeaveGame
  deriving DecidableEq, Repr

/-- UTF-8 bytes of the shared secret literal "password". -/
def passwordBytes : RStr := [112, 97, 115, 115, 119, 111, 114, 100]

/-- Result of one `react_to_client_msg` call: the state after the handler, the
messages sent (in order, with their recipients), and whether the handler ran
to completion (`ok = false` when a `send_message` failed through `?` and the
remaining effects were skipped). -/
structure ReactResult where
  state : ServerState
  sends : List (Uuid × ServerMessage)
  ok : Bool
  deriving DecidableEq, Repr

/-- One step of the `LeaveGame` arm's first loop: every active match whose
guesser is the leaving player is set to `GivenUp` (in place), `MatchEnded` is
sent to its challenger, and its id is pushed onto `matches_to_finish`.  A
failed send aborts the loop after the in-place `give_up` of the current
match. Returns the updated association list, the sends, the ids to finish,
and the success flag. -/
def leaveGuesserPass (conns : List Uuid) (pid : Uuid) :
    List (Uuid × Match) →
      List (Uuid × Match) × List (Uuid × ServerMessage) × List Uuid × Bool
  | [] => ([], [], [], true)
  | (k, m) :: rest =>
      if m.guesser = pid then
        let m1 := m.give_up
        if m1.challenger ∈ conns then
          let r := leaveGuesserPass conns pid rest
          ((k, m1) :: r.1,
            (m1.challenger,
              ServerMessage.MatchEnded m1.id m1.attempts (hintCount m1) false) :: r.2.1,
            m1.id :: r.2.2.1, r.2.2.2)
        else ((k, m1) :: rest, [], [], false)
      else
        let r := leaveGuesserPass conns pid rest
        ((k, m) :: r.1, r.2.1, r.2.2.1, r.2.2.2)

/-- One step of the `LeaveGame` arm's second loop: every active match whose
challenger is the leaving player is cancelled (in place) and `MatchEnded` is
sent to its guesser; a failed send aborts after the in-place `cancel`. -/
def leaveChallengerPass (conns : List Uuid) (pid : Uuid) :
    List (Uuid × Match) →
      List (Uuid × Match) × List (Uuid × ServerMessage) × List Uuid × Bool
  | [] => ([], [], [], true)
  | (k, m) :: rest =>
      if m.challenger = pid then
        let m1 := m.cancel
        if m1.guesser ∈ conns then
          let r := leaveChallengerPass conns pid rest
          ((k, m1) :: r.1,
            (m1.guesser,
              ServerMessage.MatchEnded m1.id m1.attempts (hintCount m1) false) :: r.2.1,
            m1.id :: r.2.2.1, r.2.2.2)
        else ((k, m1) :: rest, [], [], false)
      else
        let r := leaveChallengerPass conns pid rest
        ((k, m) :: r.1, r.2.1, r.2.2.1, r.2.2.2)

/-- Rust `react_to_client_msg` from `server_connection.rs`.  `conns` is the
connection registry (ids with a live outbound channel); a send to an id
outside it is the `send_message` failure whose `?` aborts the handler. -/
def react (pid : Uuid) (msg : ClientMessage) (conns : List Uuid)
    (s : ServerState) : ReactResult :=
  match msg with
  | ClientMessage.AnswerPassword password =>
      if password = passwordBytes then
        let s1 := s.add_available_player pid
        if pid ∈ conns then ⟨s1, [(pid, ServerMessage.AssignId pid)], true⟩
        else ⟨s1, [], false⟩
      else ⟨s, [], true⟩
  | ClientMessage.GetOpponents =>
      let opponents := s.available_players.filter (fun p => p ≠ pid)
      if pid ∈ conns then ⟨s, [(pid, ServerMessage.ListOpponents opponents)], true⟩
      else ⟨s, [], false⟩
  | ClientMessage.RequestMatch opponent guess_word =>
      match s.create_new_match (pid, opponent) guess_word with
      | (some match_id, s1) =>
          if opponent ∈ conns then
            if pid ∈ conns then
              ⟨s1, [(opponent, ServerMessage.MatchStarted match_id),
                    (pid, ServerMessage.MatchAccepted match_id)], true⟩
            else ⟨s1, [(opponent, ServerMessage.MatchStarted match_id)], false⟩
          else ⟨s1, [], false⟩
      | (none, s1) =>
          if pid ∈ conns then
            ⟨s1, [(pid, ServerMessage.BadRequest ClientRequestError.CannotCreateMatch)], true⟩
          else ⟨s1, [], false⟩
  | ClientMessage.GuessAttempt match_id guess =>
      match List.lookup match_id s.active_matches with
      | some am =>
          let am1 := am.attempt guess
          let s1 := { s with active_matches := updateAssoc match_id am1 s.active_matches }
          match am1.state with
          | MatchState.Active =>
              if am1.challenger ∈ conns then
                if am1.guesser ∈ conns then
                  ⟨s1, [(am1.challenger,
                          ServerMessage.MatchAttempt match_id am1.attempts (hintCount am1) guess),
                        (am1.guesser,
                          ServerMessage.IncorrectGuess match_id am1.attempts)], true⟩
                else
                  ⟨s1, [(am1.challenger,
                          ServerMessage.MatchAttempt match_id am1.attempts (hintCount am1) guess)],
                    false⟩
              else ⟨s1, [], false⟩
          | MatchState.Solved =>
              if am1.challenger ∈ conns then
                if am1.guesser ∈ conns then
                  ⟨s1.finish_match match_id,
                    [(am1.challenger,
                        ServerMessage.MatchEnded match_id am1.attempts (hintCount am1) true),
                      (am1.guesser,
                        ServerMessage.MatchEnded match_id am1.attempts (hintCount am1) true)],
                    true⟩
                else
                  ⟨s1, [(am1.challenger,
                          ServerMessage.MatchEnded match_id am1.attempts (hintCount am1) true)],
                    false⟩
              else ⟨s1, [], false⟩
          | MatchState.GivenUp => ⟨s1.finish_match match_id, [], true⟩
          | MatchState.Cancelled => ⟨s1.finish_match match_id, [], true⟩
      | none =>
          if pid ∈ conns then
            ⟨s, [(pid, ServerMessage.BadRequest ClientRequestError.Match404)], true⟩
          else ⟨s, [], false⟩
  | ClientMessage.SendHint match_id hint =>
      match List.lookup match_id s.active_matches with
      | some am =>
          let am1 := am.add_hint hint
          let s1 := { s with active_matches := updateAssoc match_id am1 s.active_matches }
          if am1.guesser ∈ conns then
            ⟨s1, [(am1.guesser, ServerMessage.MatchHint match_id hint)], true⟩
          else ⟨s1, [], false⟩
      | none =>
          if pid ∈ conns then
            ⟨s, [(pid, ServerMessage.BadRequest ClientRequestError.Match404)], true⟩
          else ⟨s, [], false⟩
  | ClientMessage.GiveUp match_id =>
      match List.lookup match_id s.active_matches with
      | some am =>
          if am.guesser ≠ pid then
            if pid ∈ conns then
              ⟨s, [(pid, ServerMessage.BadRequest ClientRequestError.PermissionDenied)], true⟩
            else ⟨s, [], false⟩
          else
            let am1 := am.give_up
            let s1 := { s with active_matches := updateAssoc match_id am1 s.active_matches }
            if am1.guesser ∈ conns then
              ⟨s1.finish_match match_id,
                [(am1.guesser,
                    ServerMessage.MatchEnded match_id am1.attempts (hintCount am1) false)],
                true⟩
            else ⟨s1, [], false⟩
      | none =>
          if pid ∈ conns then
            ⟨s, [(pid, ServerMessage.BadRequest ClientRequestError.Match404)], true⟩
          else ⟨s, [], false⟩
  | ClientMessage.LeaveGame =>
      let g := leaveGuesserPass conns pid s.active_matches
      if g.2.2.2 = false then ⟨{ s with active_matches := g.1 }, g.2.1, false⟩
      else
        let c := leaveChallengerPass conns pid g.1
        if c.2.2.2 = false then
          ⟨{ s with active_matches := c.1 }, g.2.1 ++ c.2.1, false⟩
        else
          let s1 := (g.2.2.1 ++ c.2.2.1).foldl ServerState.finish_match
            { s with active_matches := c.1 }
          let s2 := s1.remove_available_player pid
          if pid ∈ conns then
            ⟨s2, g.2.1 ++ c.2.1 ++ [(pid, ServerMessage.Disconnect)], true⟩
          else ⟨s2, g.2.1 ++ c.2.1, false⟩

/-- Fold the handler over a trace of (sender, message) pairs, starting from a
given state, keeping only the state (registry fixed for the trace). -/
def runTrace (conns : List Uuid) (s : ServerState) :
    List (Uuid × ClientMessage) → ServerState
  | [] => s
  | (pid, msg) :: rest => runTrace conns (react pid msg conns s).state rest

/-- A player id participates (as challenger or guesser) in two distinct
entries of the active-match collection. -/
def hasDoubleBooking (s : ServerState) : Bool :=
  s.active_matches.any (fun p =>
    s.active_matches.any (fun q =>
      p.1 ≠ q.1 ∧
        (p.2.challenger = q.2.challenger ∨ p.2.challenger = q.2.guesser ∨
          p.2.guesser = q.2.challenger ∨ p.2.guesser = q.2.guesser)))

/-!
Wire codec.  `connection.rs` serializes every outbound message with
`rmp_serde::Serializer` (binary MessagePack), appends the terminator byte
`b'\n' = 10`, and writes the payload; the read task collects bytes with
`read_until(b'\n')` and decodes `buf[..n-1]` with `rmp_serde::from_slice`.

The byte-level model below follows the MessagePack layout produced by
rmp-serde's default (binary, compact) serializer for the types of
`protocol.rs`:
* fieldless enum variants are written as their variant index (a MessagePack
  unsigned integer);
* variants with data are a single-entry map from the variant index to the
  payload — the payload itself for a newtype variant, an array of the fields
  for a tuple variant;
* `u32` uses the most compact unsigned representation; `String` uses the str
  family; `Uuid` serializes as its 16 raw bytes (bin8); `Vec` is an array;
  `bool` is its one-byte marker.
Decoding accepts every unsigned-integer / str / bin / array length form (as
the rmp reader does) and, like `rmp_serde::from_slice`, does not require the
input to be fully consumed: trailing bytes are ignored.
-/

/-- Big-endian bytes of `n`, exactly `k` bytes (the truncation modulo
`2 ^ (8 * k)` is what a fixed-width write performs). -/
def natToBytesBE : Nat → Nat → List Nat
  | 0, _ => []
  | k + 1, n => natToBytesBE k (n / 256) ++ [n % 256]

/-- Big-endian value of a byte list. -/
def bytesToNatBE (l : List Nat) : Nat :=
  l.foldl (fun acc b => acc * 256 + b) 0

/-- Split off exactly `k` bytes, failing on short input. -/
def readExact (k : Nat) (bs : List Nat) : Option (List Nat × List Nat) :=
  if k ≤ bs.length then some (bs.take k, bs.drop k) else none

/-- Compact MessagePack unsigned integer (what `rmp::encode::write_uint`
emits for a value below `2 ^ 32`, the only range the protocol writes). -/
def writeUint (n : Nat) : List Nat :=
  if n < 128 then [n]
  else if n < 256 then [204, n]
  else if n < 65536 then 205 :: natToBytesBE 2 n
  else 206 :: natToBytesBE 4 (n % 2 ^ 32)

/-- Read a MessagePack unsigned integer in any of its forms (positive fixint,
uint8/16/32/64). -/
def readUint : List Nat → Option (Nat × List Nat)
  | [] => none
  | b :: rest =>
      if b < 128 then some (b, rest)
      else if b = 204 then
        match rest with
        | c :: r => some (c, r)
        | [] => none
      else if b = 205 then
        (readExact 2 rest).map (fun p => (bytesToNatBE p.1, p.2))
      else if b = 206 then
        (readExact 4 rest).map (fun p => (bytesToNatBE p.1, p.2))
      else if b = 207 then
        (readExact 8 rest).map (fun p => (bytesToNatBE p.1, p.2))
      else none

/-- Read an unsigned integer that must fit in a `u32` (the deserializer
rejects larger values for a `u32` field). -/
def readU32 (bs : List Nat) : Option (Nat × List Nat) :=
  (readUint bs).bind (fun p => if p.1 < 2 ^ 32 then some p else none)

/-- MessagePack str with the most compact length form (fixstr, str8/16/32). -/
def writeStr (s : RStr) : List Nat :=
  if s.length < 32 then (160 + s.length) :: s
  else if s.length < 256 then 217 :: s.length :: s
  else if s.length < 65536 then 218 :: natToBytesBE 2 s.length ++ s
  else 219 :: natToBytesBE 4 (s.length % 2 ^ 32) ++ s

/-- Read a MessagePack str in any length form, returning its raw bytes. -/
def readStr : List Nat → Option (RStr × List Nat)
  | [] => none
  | b :: rest =>
      if 160 ≤ b ∧ b ≤ 191 then readExact (b - 160) rest
      else if b = 217 then
        match rest with
        | c :: r => readExact c r
        | [] => none
      else if b = 218 then
        (readExact 2 rest).bind (fun p => readExact (bytesToNatBE p.1) p.2)
      else if b = 219 then
        (readExact 4 rest).bind (fun p => readExact (bytesToNatBE p.1) p.2)
      else none

/-- Serialize a `Uuid` the way the uuid crate does on a binary format: its 16
raw bytes as MessagePack bin8. -/
def writeUuid (u : Uuid) : List Nat :=
  196 :: 16 :: natToBytesBE 16 u

/-- Read a MessagePack bin (bin8/16/32), returning its raw bytes. -/
def readBin : List Nat → Option (List Nat × List Nat)
  | [] => none
  | b :: rest =>
      if b = 196 then
        match rest with
        | c :: r => readExact c r
        | [] => none
      else if b = 197 then
        (readExact 2 rest).bind (fun p => readExact (bytesToNatBE p.1) p.2)
      else if b = 198 then
        (readExact 4 rest).bind (fun p => readExact (bytesToNatBE p.1) p.2)
      else none

/-- Read a `Uuid`: a bin payload that must be exactly 16 bytes
(`Uuid::from_slice` rejects any other length). -/
def readUuid (bs : List Nat) : Option (Uuid × List Nat) :=
  (readBin bs).bind (fun p =>
    if p.1.length = 16 then some (bytesToNatBE p.1, p.2) else none)

/-- MessagePack array header, most compact form. -/
def writeArrayLen (n : Nat) : List Nat :=
  if n < 16 then [144 + n]
  else if n < 65536 then 220 :: natToBytesBE 2 n
  else 221 :: natToBytesBE 4 (n % 2 ^ 32)

/-- Read a MessagePack array header in any form. -/
def readArrayLen : List Nat → Option (Nat × List Nat)
  | [] => none
  | b :: rest =>
      if 144 ≤ b ∧ b ≤ 159 then some (b - 144, rest)
      else if b = 220 then
        (readExact 2 rest).map (fun p => (bytesToNatBE p.1, p.2))
      else if b = 221 then
        (readExact 4 rest).map (fun p => (bytesToNatBE p.1, p.2))
      else none

/-- Serialize `Vec<Uuid>`: an array of uuid payloads. -/
def writeUuidList (l : List Uuid) : List Nat :=
  writeArrayLen l.length ++ l.flatMap writeUuid

/-- Read `n` consecutive uuids. -/
def readUuids : Nat → List Nat → Option (List Uuid × List Nat)
  | 0, bs => some ([], bs)
  | n + 1, bs =>
      (readUuid bs).bind (fun p =>
        (readUuids n p.2).map (fun q => (p.1 :: q.1, q.2)))

/-- Read `Vec<Uuid>`. -/
def readUuidList (bs : List Nat) : Option (List Uuid × List Nat) :=
  (readArrayLen bs).bind (fun p => readUuids p.1 p.2)

/-- MessagePack bool. -/
def writeBool (b : Bool) : List Nat := if b then [195] else [194]

/-- Read a MessagePack bool. -/
def readBool : List Nat → Option (Bool × List Nat)
  | [] => none
  | b :: rest =>
      if b = 195 then some (true, rest)
      else if b = 194 then some (false, rest)
      else none

/-- Variant index of a `ClientRequestError` (declaration order). -/
def errIndex : ClientRequestError → Nat
  | ClientRequestError.CannotCreateMatch => 0
  | ClientRequestError.Match404 => 1
  | ClientRequestError.PermissionDenied => 2

/-- Read a `ClientRequestError` (a fieldless enum: its variant index). -/
def readErr (bs : List Nat) : Option (ClientRequestError × List Nat) :=
  (readUint bs).bind (fun p =>
    if p.1 = 0 then some (ClientRequestError.CannotCreateMatch, p.2)
    else if p.1 = 1 then some (ClientRequestError.Match404, p.2)
    else if p.1 = 2 then some (ClientRequestError.PermissionDenied, p.2)
    else none)

/-- rmp-serde encoding of a `ServerMessage` (variant indices follow the
declaration order in `protocol.rs`). -/
def encodeServerMessage : ServerMessage → List Nat
  | ServerMessage.AskPassword => writeUint 0
  | ServerMessage.WrongPassword => writeUint 1
  | ServerMessage.AssignId u => 129 :: writeUint 2 ++ writeUuid u
  | ServerMessage.BadRequest e => 129 :: writeUint 3 ++ writeUint (errIndex e)
  | ServerMessage.ListOpponents l => 129 :: writeUint 4 ++ writeUuidList l
  | ServerMessage.MatchAccepted u => 129 :: writeUint 5 ++ writeUuid u
  | ServerMessage.MatchStarted u => 129 :: writeUint 6 ++ writeUuid u
  | ServerMessage.MatchAttempt u a h s =>
      129 :: writeUint 7 ++ writeArrayLen 4 ++ writeUuid u ++ writeUint a ++
        writeUint h ++ writeStr s
  | ServerMessage.IncorrectGuess u a =>
      129 :: writeUint 8 ++ writeArrayLen 2 ++ writeUuid u ++ writeUint a
  | ServerMessage.MatchHint u h =>
      129 :: writeUint 9 ++ writeArrayLen 2 ++ writeUuid u ++ writeStr h
  | ServerMessage.MatchEnded u a h b =>
      129 :: writeUint 10 ++ writeArrayLen 4 ++ writeUuid u ++ writeUint a ++
        writeUint h ++ writeBool b
  | ServerMessage.Disconnect => writeUint 11

/-- rmp-serde decoding of a `ServerMessage` off the front of a byte list. -/
def decodeServerMessage (bs : List Nat) : Option (ServerMessage × List Nat) :=
  match readUint bs with
  | some (idx, rest) =>
      if idx = 0 then some (ServerMessage.AskPassword, rest)
      else if idx = 1 then some (ServerMessage.WrongPassword, rest)
      else if idx = 11 then some (ServerMessage.Disconnect, rest)
      else none
  | none =>
      match bs with
      | 129 :: rest =>
          (readUint rest).bind (fun p =>
            let idx := p.1
            let r := p.2
            if idx = 2 then
              (readUuid r).map (fun q => (ServerMessage.AssignId q.1, q.2))
            else if idx = 3 then
              (readErr r).map (fun q => (ServerMessage.BadRequest q.1, q.2))
            else if idx = 4 then
              (readUuidList r).map (fun q => (ServerMessage.ListOpponents q.1, q.2))
            else if idx = 5 then
              (readUuid r).map (fun q => (ServerMessage.MatchAccepted q.1, q.2))
            else if idx = 6 then
              (readUuid r).map (fun q => (ServerMessage.MatchStarted q.1, q.2))
            else if idx = 7 then
              (readArrayLen r).bind (fun q =>
                if q.1 = 4 then
                  (readUuid q.2).bind (fun q1 =>
                    (readU32 q1.2).bind (fun q2 =>
                      (readU32 q2.2).bind (fun q3 =>
                        (readStr q3.2).map (fun q4 =>
                          (ServerMessage.MatchAttempt q1.1 q2.1 q3.1 q4.1, q4.2)))))
                else none)
            else if idx = 8 then
              (readArrayLen r).bind (fun q =>
                if q.1 = 2 then
                  (readUuid q.2).bind (fun q1 =>
                    (readU32 q1.2).map (fun q2 =>
                      (ServerMessage.IncorrectGuess q1.1 q2.1, q2.2)))
                else none)
            else if idx = 9 then
              (readArrayLen r).bind (fun q =>
                if q.1 = 2 then
                  (readUuid q.2).bind (fun q1 =>
                    (readStr q1.2).map (fun q2 =>
                      (ServerMessage.MatchHint q1.1 q2.1, q2.2)))
                else none)
            else if idx = 10 then
              (readArrayLen r).bind (fun q =>
                if q.1 = 4 then
                  (readUuid q.2).bind (fun q1 =>
                    (readU32 q1.2).bind (fun q2 =>
                      (readU32 q2.2).bind (fun q3 =>
                        (readBool q3.2).map (fun q4 =>
                          (ServerMessage.MatchEnded q1.1 q2.1 q3.1 q4.1, q4.2)))))
                else none)
            else none)
      | _ => none

/-- rmp-serde encoding of a `ClientMessage`. -/
def encodeClientMessage : ClientMessage → List Nat
  | ClientMessage.AnswerPassword s => 129 :: writeUint 0 ++ writeStr s
  | ClientMessage.GetOpponents => writeUint 1
  | ClientMessage.RequestMatch u s =>
      129 :: writeUint 2 ++ writeArrayLen 2 ++ writeUuid u ++ writeStr s
  | ClientMessage.GuessAttempt u s =>
      129 :: writeUint 3 ++ writeArrayLen 2 ++ writeUuid u ++ writeStr s
  | ClientMessage.SendHint u s =>
      129 :: writeUint 4 ++ writeArrayLen 2 ++ writeUuid u ++ writeStr s
  | ClientMessage.GiveUp u => 129 :: writeUint 5 ++ writeUuid u
  | ClientMessage.LeaveGame => writeUint 6

/-- rmp-serde decoding of a `ClientMessage` off the front of a byte list. -/
def decodeClientMessage (bs : List Nat) : Option (ClientMessage × List Nat) :=
  match readUint bs with
  | some (idx, rest) =>
      if idx = 1 then some (ClientMessage.GetOpponents, rest)
      else if idx = 6 then some (ClientMessage.LeaveGame, rest)
      else none
  | none =>
      match bs with
      | 129 :: rest =>
          (readUint rest).bind (fun p =>
            let idx := p.1
            let r := p.2
            if idx = 0 then
              (readStr r).map (fun q => (ClientMessage.AnswerPassword q.1, q.2))
            else if idx = 2 then
              (readArrayLen r).bind (fun q =>
                if q.1 = 2 then
                  (readUuid q.2).bind (fun q1 =>
                    (readStr q1.2).map (fun q2 =>
                      (ClientMessage.RequestMatch q1.1 q2.1, q2.2)))
                else none)
            else if idx = 3 then
              (readArrayLen r).bind (fun q =>
                if q.1 = 2 then
                  (readUuid q.2).bind (fun q1 =>
                    (readStr q1.2).map (fun q2 =>
                      (ClientMessage.GuessAttempt q1.1 q2.1, q2.2)))
                else none)
            else if idx = 4 then
              (readArrayLen r).bind (fun q =>
                if q.1 = 2 then
                  (readUuid q.2).bind (fun q1 =>
                    (readStr q1.2).map (fun q2 =>
                      (ClientMessage.SendHint q1.1 q2.1, q2.2)))
                else none)
            else if idx = 5 then
              (readUuid r).map (fun q => (ClientMessage.GiveUp q.1, q.2))
            else none)
      | _ => none

/-- Rust `rmp_serde::from_slice` for server messages: decode one value off the
front, ignoring any unconsumed trailing bytes. -/
def fromSliceServer (bs : List Nat) : Option ServerMessage :=
  (decodeServerMessage bs).map (fun p => p.1)

/-- Rust `rmp_serde::from_slice` for client messages. -/
def fromSliceClient (bs : List Nat) : Option ClientMessage :=
  (decodeClientMessage bs).map (fun p => p.1)

/-- The write task's framing: serialized payload followed by the terminator
byte `b'\n'` (10). -/
def frame (payload : List Nat) : List Nat := payload ++ [10]

/-- The read task's framing recovery: `read_until(b'\n')` collects through the
first 10 (or to end of stream), and the handler decodes `buf[..n-1]`, i.e.
everything before that terminator (or all but the final byte at EOF). -/
def readFrame (stream : List Nat) : List Nat :=
  if 10 ∈ stream then stream.takeWhile (fun b => b != 10) else stream.dropLast

/-- One framed read + decode of a server message, as the client's read task
performs it. -/
def framedDecodeServer (stream : List Nat) : Option ServerMessage :=
  fromSliceServer (readFrame stream)

/-- One framed read + decode of a client message, as the server's read task
performs it. -/
def framedDecodeClient (stream : List Nat) : Option ClientMessage :=
  fromSliceClient (readFrame stream)

/-- Well-formedness of the values a `ServerMessage` can carry: uuids fit in 16
bytes, `u32` fields fit in 32 bits, and string/list lengths fit in the
MessagePack 32-bit length headers — all automatic for values produced by the
Rust types. -/
def ValidServer : ServerMessage → Prop
  | ServerMessage.AssignId u => u < 2 ^ 128
  | ServerMessage.BadRequest _ => True
  | ServerMessage.ListOpponents l => l.length < 2 ^ 32 ∧ ∀ u ∈ l, u < 2 ^ 128
  | ServerMessage.MatchAccepted u => u < 2 ^ 128
  | ServerMessage.MatchStarted u => u < 2 ^ 128
  | ServerMessage.MatchAttempt u a h s =>
      u < 2 ^ 128 ∧ a < 2 ^ 32 ∧ h < 2 ^ 32 ∧ s.length < 2 ^ 32
  | ServerMessage.IncorrectGuess u a => u < 2 ^ 128 ∧ a < 2 ^ 32
  | ServerMessage.MatchHint u h => u < 2 ^ 128 ∧ h.length < 2 ^ 32
  | ServerMessage.MatchEnded u a h _ => u < 2 ^ 128 ∧ a < 2 ^ 32 ∧ h < 2 ^ 32
  | _ => True

/-- Well-formedness of the values a `ClientMessage` can carry. -/
def ValidClient : ClientMessage → Prop
  | ClientMessage.AnswerPassword s => s.length < 2 ^ 32
  | ClientMessage.RequestMatch u s => u < 2 ^ 128 ∧ s.length < 2 ^ 32
  | ClientMessage.GuessAttempt u s => u < 2 ^ 128 ∧ s.length < 2 ^ 32
  | ClientMessage.SendHint u s => u < 2 ^ 128 ∧ s.length < 2 ^ 32
  | ClientMessage.GiveUp u => u < 2 ^ 128
  | _ => True

instance : ∀ m, Decidable (ValidServer m) := by
  intro m
  cases m <;> simp [ValidServer] <;> infer_instance

instance : ∀ m, Decidable (ValidClient m) := by
  intro m
  cases m <;> simp [ValidClient] <;> infer_instance

/-! Codec lemmas. -/

theorem natToBytesBE_length (k n : Nat) : (natToBytesBE k n).length = k := by
  induction k generalizing n with
  | zero => rfl
  | succ k ih => simp [natToBytesBE, ih]

theorem bytesToNatBE_append_single (l : List Nat) (b : Nat) :
    bytesToNatBE (l ++ [b]) = bytesToNatBE l * 256 + b := by
  simp [bytesToNatBE, List.foldl_append]

theorem bytesToNatBE_natToBytesBE (k n : Nat) :
    bytesToNatBE (natToBytesBE k n) = n % 256 ^ k := by
  induction k generalizing n with
  | zero => simp [natToBytesBE, bytesToNatBE, Nat.mod_one]
  | succ k ih =>
      rw [natToBytesBE, bytesToNatBE_append_single, ih]
      have h256 : (256 : Nat) ^ (k + 1) = 256 * 256 ^ k := by ring
      rw [h256, Nat.mod_mul]
      ring

theorem readExact_append {l : List Nat} {k : Nat} (h : l.length = k) (rest : List Nat) :
    readExact k (l ++ rest) = some (l, rest) := by
  subst h
  rw [readExact, if_pos (by simp)]
  rw [List.take_left, List.drop_left]

theorem readUint_cons_204 (c : Nat) (r : List Nat) : readUint (204 :: c :: r) = some (c, r) := rfl

theorem readUint_cons_205 (r : List Nat) :
    readUint (205 :: r) = (readExact 2 r).map (fun p => (bytesToNatBE p.1, p.2)) := rfl

theorem readUint_cons_206 (r : List Nat) :
    readUint (206 :: r) = (readExact 4 r).map (fun p => (bytesToNatBE p.1, p.2)) := rfl

theorem readStr_cons_217 (c : Nat) (r : List Nat) : readStr (217 :: c :: r) = readExact c r := rfl

theorem readStr_cons_218 (r : List Nat) :
    readStr (218 :: r) = (readExact 2 r).bind (fun p => readExact (bytesToNatBE p.1) p.2) := rfl

theorem readStr_cons_219 (r : List Nat) :
    readStr (219 :: r) = (readExact 4 r).bind (fun p => readExact (bytesToNatBE p.1) p.2) := rfl

theorem readStr_fixstr {b : Nat} (hb : 160 ≤ b ∧ b ≤ 191) (r : List Nat) :
    readStr (b :: r) = readExact (b - 160) r := by
  simp [readStr, hb]

theorem readBin_cons_196 (c : Nat) (r : List Nat) : readBin (196 :: c :: r) = readExact c r := rfl

theorem readArrayLen_fixarray {b : Nat} (hb : 144 ≤ b ∧ b ≤ 159) (r : List Nat) :
    readArrayLen (b :: r) = some (b - 144, r) := by
  simp [readArrayLen, hb]

theorem readArrayLen_cons_220 (r : List Nat) :
    readArrayLen (220 :: r) = (readExact 2 r).map (fun p => (bytesToNatBE p.1, p.2)) := rfl

theorem readArrayLen_cons_221 (r : List Nat) :
    readArrayLen (221 :: r) = (readExact 4 r).map (fun p => (bytesToNatBE p.1, p.2)) := rfl

theorem readUint_writeUint {n : Nat} (h : n < 2 ^ 32) (rest : List Nat) :
    readUint (writeUint n ++ rest) = some (n, rest) := by
  rw [writeUint]
  by_cases h1 : n < 128
  · simp [readUint, h1]
  · rw [if_neg h1]
    by_cases h2 : n < 256
    · rw [if_pos h2]
      simp [readUint, h1, h2]
    · rw [if_neg h2]
      by_cases h3 : n < 65536
      · rw [if_pos h3]
        rw [List.cons_append, readUint_cons_205, readExact_append (natToBytesBE_length 2 n)]
        simp [bytesToNatBE_natToBytesBE]
        omega
      · rw [if_neg h3]
        rw [List.cons_append, readUint_cons_206,
          readExact_append (natToBytesBE_length 4 (n % 2 ^ 32))]
        simp [bytesToNatBE_natToBytesBE]
        omega

theorem readU32_writeUint {n : Nat} (h : n < 2 ^ 32) (rest : List Nat) :
    readU32 (writeUint n ++ rest) = some (n, rest) := by
  rw [readU32, readUint_writeUint h]
  exact if_pos h

theorem readStr_writeStr {s : RStr} (h : s.length < 2 ^ 32) (rest : List Nat) :
    readStr (writeStr s ++ rest) = some (s, rest) := by
  rw [writeStr]
  by_cases h1 : s.length < 32
  · rw [if_pos h1, List.cons_append, readStr_fixstr (by omega),
      show 160 + s.length - 160 = s.length from by omega, readExact_append rfl]
  · rw [if_neg h1]
    by_cases h2 : s.length < 256
    · rw [if_pos h2, List.cons_append, List.cons_append, readStr_cons_217,
        readExact_append rfl]
    · rw [if_neg h2]
      by_cases h3 : s.length < 65536
      · rw [if_pos h3]
        simp only [List.cons_append, List.append_assoc]
        rw [readStr_cons_218, readExact_append (natToBytesBE_length 2 s.length)]
        simp only [Option.some_bind, bytesToNatBE_natToBytesBE,
          show s.length % 256 ^ 2 = s.length from by
            rw [show (256 : Nat) ^ 2 = 65536 from by norm_num]
            omega]
        rw [readExact_append rfl]
      · rw [if_neg h3]
        simp only [List.cons_append, List.append_assoc]
        rw [readStr_cons_219, readExact_append (natToBytesBE_length 4 (s.length % 2 ^ 32))]
        simp only [Option.some_bind, bytesToNatBE_natToBytesBE,
          show s.length % 2 ^ 32 % 256 ^ 4 = s.length from by
            rw [show (256 : Nat) ^ 4 = 2 ^ 32 from by norm_num]
            omega]
        rw [readExact_append rfl]

theorem readUuid_writeUuid {u : Uuid} (h : u < 2 ^ 128) (rest : List Nat) :
    readUuid (writeUuid u ++ rest) = some (u, rest) := by
  rw [writeUuid, readUuid]
  simp only [List.cons_append]
  rw [readBin_cons_196, readExact_append (natToBytesBE_length 16 u)]
  simp only [Option.some_bind, natToBytesBE_length, if_true, eq_self_iff_true,
    bytesToNatBE_natToBytesBE,
    show u % 256 ^ 16 = u from Nat.mod_eq_of_lt (lt_of_lt_of_le h (by norm_num))]

theorem readArrayLen_writeArrayLen {n : Nat} (h : n < 2 ^ 32) (rest : List Nat) :
    readArrayLen (writeArrayLen n ++ rest) = some (n, rest) := by
  rw [writeArrayLen]
  by_cases h1 : n < 16
  · rw [if_pos h1, List.cons_append, readArrayLen_fixarray (by omega)]
    simp only [show 144 + n - 144 = n from by omega, List.nil_append]
  · rw [if_neg h1]
    by_cases h2 : n < 65536
    · rw [if_pos h2, List.cons_append, readArrayLen_cons_220,
        readExact_append (natToBytesBE_length 2 n)]
      simp [bytesToNatBE_natToBytesBE]
      omega
    · rw [if_neg h2, List.cons_append, readArrayLen_cons_221,
        readExact_append (natToBytesBE_length 4 (n % 2 ^ 32))]
      simp [bytesToNatBE_natToBytesBE]
      omega

theorem readBool_writeBool (b : Bool) (rest : List Nat) :
    readBool (writeBool b ++ rest) = some (b, rest) := by
  cases b <;> simp [writeBool, readBool]

theorem readErr_writeErr (e : ClientRequestError) (rest : List Nat) :
    readErr (writeUint (errIndex e) ++ rest) = some (e, rest) := by
  cases e <;> rfl

theorem readUuids_append {l : List Uuid} (h : ∀ u ∈ l, u < 2 ^ 128) (rest : List Nat) :
    readUuids l.length (l.flatMap writeUuid ++ rest) = some (l, rest) := by
  induction l with
  | nil => simp [readUuids]
  | cons u l ih =>
      simp [readUuids, readUuid_writeUuid (h u (by simp)),
        ih (fun v hv => h v (by simp [hv]))]

theorem readUuidList_writeUuidList {l : List Uuid} (hl : l.length < 2 ^ 32)
    (h : ∀ u ∈ l, u < 2 ^ 128) (rest : List Nat) :
    readUuidList (writeUuidList l ++ rest) = some (l, rest) := by
  rw [readUuidList, writeUuidList, List.append_assoc, readArrayLen_writeArrayLen hl]
  simp [readUuids_append h rest]

theorem readUint_cons_129 (r : List Nat) : readUint (129 :: r) = none := rfl

theorem decodeServer_encode (m : ServerMessage) (hm : ValidServer m) (rest : List Nat) :
    decodeServerMessage (encodeServerMessage m ++ rest) = some (m, rest) := by
  cases m with
  | AskPassword =>
      simp [encodeServerMessage, decodeServerMessage, readUint_writeUint]
  | WrongPassword =>
      simp [encodeServerMessage, decodeServerMessage, readUint_writeUint]
  | Disconnect =>
      simp [encodeServerMessage, decodeServerMessage, readUint_writeUint]
  | AssignId u =>
      simp only [ValidServer] at hm
      simp [encodeServerMessage, decodeServerMessage, readUint_cons_129,
        readUint_writeUint, readUuid_writeUuid hm]
  | BadRequest e =>
      simp [encodeServerMessage, decodeServerMessage, readUint_cons_129,
        readUint_writeUint, readErr_writeErr]
  | ListOpponents l =>
      simp only [ValidServer] at hm
      simp [encodeServerMessage, decodeServerMessage, readUint_cons_129,
        readUint_writeUint, readUuidList_writeUuidList hm.1 hm.2]
  | MatchAccepted u =>
      simp only [ValidServer] at hm
      simp [encodeServerMessage, decodeServerMessage, readUint_cons_129,
        readUint_writeUint, readUuid_writeUuid hm]
  | MatchStarted u =>
      simp only [ValidServer] at hm
      simp [encodeServerMessage, decodeServerMessage, readUint_cons_129,
        readUint_writeUint, readUuid_writeUuid hm]
  | MatchAttempt u a h s =>
      obtain ⟨hu, ha, hh, hs⟩ := hm
      simp [encodeServerMessage, decodeServerMessage, readUint_cons_129,
        readUint_writeUint, readArrayLen_writeArrayLen, readUuid_writeUuid hu,
        readU32_writeUint ha, readU32_writeUint hh, readStr_writeStr hs]
  | IncorrectGuess u a =>
      obtain ⟨hu, ha⟩ := hm
      simp [encodeServerMessage, decodeServerMessage, readUint_cons_129,
        readUint_writeUint, readArrayLen_writeArrayLen, readUuid_writeUuid hu,
        readU32_writeUint ha]
  | MatchHint u h =>
      obtain ⟨hu, hh⟩ := hm
      simp [encodeServerMessage, decodeServerMessage, readUint_cons_129,
        readUint_writeUint, readArrayLen_writeArrayLen, readUuid_writeUuid hu,
        readStr_writeStr hh]
  | MatchEnded u a h b =>
      obtain ⟨hu, ha, hh⟩ := hm
      simp [encodeServerMessage, decodeServerMessage, readUint_cons_129,
        readUint_writeUint, readArrayLen_writeArrayLen, readUuid_writeUuid hu,
        readU32_writeUint ha, readU32_writeUint hh, readBool_writeBool]

theorem decodeClient_encode (m : ClientMessage) (hm : ValidClient m) (rest : List Nat) :
    decodeClientMessage (encodeClientMessage m ++ rest) = some (m, rest) := by
  cases m with
  | GetOpponents =>
      simp [encodeClientMessage, decodeClientMessage, readUint_writeUint]
  | LeaveGame =>
      simp [encodeClientMessage, decodeClientMessage, readUint_writeUint]
  | AnswerPassword s =>
      simp only [ValidClient] at hm
      simp [encodeClientMessage, decodeClientMessage, readUint_cons_129,
        readUint_writeUint, readStr_writeStr hm]
  | RequestMatch u s =>
      obtain ⟨hu, hs⟩ := hm
      simp [encodeClientMessage, decodeClientMessage, readUint_cons_129,
        readUint_writeUint, readArrayLen_writeArrayLen, readUuid_writeUuid hu,
        readStr_writeStr hs]
  | GuessAttempt u s =>
      obtain ⟨hu, hs⟩ := hm
      simp [encodeClientMessage, decodeClientMessage, readUint_cons_129,
        readUint_writeUint, readArrayLen_writeArrayLen, readUuid_writeUuid hu,
        readStr_writeStr hs]
  | SendHint u s =>
      obtain ⟨hu, hs⟩ := hm
      simp [encodeClientMessage, decodeClientMessage, readUint_cons_129,
        readUint_writeUint, readArrayLen_writeArrayLen, readUuid_writeUuid hu,
        readStr_writeStr hs]
  | GiveUp u =>
      simp only [ValidClient] at hm
      simp [encodeClientMessage, decodeClientMessage, readUint_cons_129,
        readUint_writeUint, readUuid_writeUuid hm]

theorem takeWhile_append_terminator {l : List Nat} (h : (10 : Nat) ∉ l) :
    (l ++ [10]).takeWhile (fun b => b != 10) = l := by
  induction l with
  | nil => simp [List.takeWhile]
  | cons a l ih =>
      simp only [List.mem_cons, not_or] at h
      simp only [List.cons_append, List.takeWhile_cons]
      rw [if_pos (by simpa using fun e => h.1 e.symm), ih h.2]

theorem readFrame_frame {payload : List Nat} (h : (10 : Nat) ∉ payload) :
    readFrame (frame payload) = payload := by
  rw [frame, readFrame, if_pos (by simp), takeWhile_append_terminator h]

theorem framedDecodeServer_frame_encode {m : ServerMessage} (hm : ValidServer m)
    (h : (10 : Nat) ∉ encodeServerMessage m) :
    framedDecodeServer (frame (encodeServerMessage m)) = some m := by
  rw [framedDecodeServer, readFrame_frame h, fromSliceServer]
  have e := decodeServer_encode m hm []
  rw [List.append_nil] at e
  rw [e]
  rfl

theorem framedDecodeClient_frame_encode {m : ClientMessage} (hm : ValidClient m)
    (h : (10 : Nat) ∉ encodeClientMessage m) :
    framedDecodeClient (frame (encodeClientMessage m)) = some m := by
  rw [framedDecodeClient, readFrame_frame h, fromSliceClient]
  have e := decodeClient_encode m hm []
  rw [List.append_nil] at e
  rw [e]
  rfl

/-! State helper lemmas. -/

theorem lookup_eraseKey (k : Uuid) (l : List (Uuid × Match)) :
    List.lookup k (eraseKey k l) = none := by
  induction l with
  | nil => rfl
  | cons p l ih =>
      obtain ⟨a, b⟩ := p
      by_cases h : a = k
      · rw [eraseKey, List.filter_cons, if_neg (by simp [h])]
        exact ih
      · rw [eraseKey, List.filter_cons, if_pos (by simp [h]), List.lookup_cons,
          beq_false_of_ne (fun e => h e.symm)]
        exact ih

theorem lookup_insertAssoc (k : Uuid) (v : Match) (l : List (Uuid × Match)) :
    List.lookup k (insertAssoc k v l) = some v := by
  simp [insertAssoc, List.lookup_cons]

theorem lookup_updateAssoc {k : Uuid} {l : List (Uuid × Match)} {v : Match}
    (h : List.lookup k l = some v) (w : Match) :
    List.lookup k (updateAssoc k w l) = some w := by
  induction l with
  | nil => simp [List.lookup] at h
  | cons p l ih =>
      obtain ⟨a, b⟩ := p
      by_cases hp : k = a
      · simp [updateAssoc, hp.symm, List.lookup_cons]
      · rw [List.lookup_cons, beq_false_of_ne hp] at h
        rw [updateAssoc, List.map_cons,
          show (if (a, b).1 = k then (k, w) else (a, b)) = (a, b) from
            if_neg (fun e => hp e.symm),
          List.lookup_cons, beq_false_of_ne hp]
        exact ih h

theorem attempt_challenger (m : Match) (g : RStr) :
    (m.attempt g).challenger = m.challenger := by
  simp only [Match.attempt]
  split <;> rfl

theorem attempt_guesser (m : Match) (g : RStr) : (m.attempt g).guesser = m.guesser := by
  simp only [Match.attempt]
  split <;> rfl

theorem attempt_id (m : Match) (g : RStr) : (m.attempt g).id = m.id := by
  simp only [Match.attempt]
  split <;> rfl

theorem attempt_guess_word (m : Match) (g : RStr) :
    (m.attempt g).guess_word = m.guess_word := by
  simp only [Match.attempt]
  split <;> rfl

theorem attempt_hints (m : Match) (g : RStr) : (m.attempt g).hints = m.hints := by
  simp only [Match.attempt]
  split <;> rfl

theorem attempt_attempts (m : Match) (g : RStr) :
    (m.attempt g).attempts = (m.attempts + 1) % 2 ^ 32 := by
  simp only [Match.attempt]
  split <;> rfl

theorem attempt_state (m : Match) (g : RStr) :
    (m.attempt g).state = if g = m.guess_word then MatchState.Solved else m.state := by
  simp only [Match.attempt]
  split <;> rfl

theorem add_hint_guesser (m : Match) (h : RStr) : (m.add_hint h).guesser = m.guesser := rfl

theorem foldl_attempt_guess_word (gs : List RStr) (m : Match) :
    (gs.foldl Match.attempt m).guess_word = m.guess_word := by
  induction gs generalizing m with
  | nil => rfl
  | cons g gs ih => rw [List.foldl_cons, ih, attempt_guess_word]

theorem foldl_attempt_attempts (gs : List RStr) (m : Match) (h : m.attempts < 2 ^ 32) :
    (gs.foldl Match.attempt m).attempts = (m.attempts + gs.length) % 2 ^ 32 := by
  induction gs generalizing m with
  | nil =>
      simp only [List.foldl_nil, List.length_nil, Nat.add_zero]
      omega
  | cons g gs ih =>
      rw [List.foldl_cons, ih (m.attempt g) (by rw [attempt_attempts]; exact Nat.mod_lt _ (by norm_num)),
        attempt_attempts, Nat.mod_add_mod, List.length_cons]
      congr 1
      omega

/-! Claim theorems. -/

/-- C4 (counterexample): the `Match` terminal states are not sinks — `give_up`
moves a `Solved` match to `GivenUp`, `cancel` moves a `GivenUp` match to
`Cancelled`, and `attempt` with the stored word moves a `GivenUp` match to
`Solved`, instead of being a no-op or an error on a terminal match. -/
theorem terminal_state_overwritten :
    ((⟨0, 1, 2, 5, [], [97], MatchState.Solved⟩ : Match).give_up).state ≠
      MatchState.Solved ∧
    ((⟨0, 1, 2, 5, [], [97], MatchState.Solved⟩ : Match).give_up).state =
      MatchState.GivenUp ∧
    ((⟨0, 1, 2, 5, [], [97], MatchState.GivenUp⟩ : Match).cancel).state =
      MatchState.Cancelled ∧
    ((⟨0, 1, 2, 5, [], [97], MatchState.GivenUp⟩ : Match).attempt [97]).state =
      MatchState.Solved := by decide

/-- C4 (amended): the `Match` operations are unguarded — `give_up` always sets
`GivenUp` and `cancel` always sets `Cancelled`, whatever the current state
(terminal states included); `attempt` always increments the wrapping `u32`
counter and sets `Solved` exactly when the guess equals the stored word,
whatever the current state. -/
theorem match_ops_unguarded (m : Match) (g : RStr) :
    (m.give_up).state = MatchState.GivenUp ∧
    (m.cancel).state = MatchState.Cancelled ∧
    (m.attempt g).state = (if g = m.guess_word then MatchState.Solved else m.state) ∧
    (m.attempt g).attempts = (m.attempts + 1) % 2 ^ 32 :=
  ⟨rfl, rfl, attempt_state m g, attempt_attempts m g⟩

/-- C5: when either participant is not in the available set,
`create_new_match` returns `none` and leaves the server state (available set,
active matches, finished matches, id source) exactly as it was. -/
theorem create_new_match_unavailable_noop (s : ServerState) (a b : Uuid) (w : RStr)
    (h : a ∉ s.available_players ∨ b ∉ s.available_players) :
    s.create_new_match (a, b) w = (none, s) := by
  rw [ServerState.create_new_match, if_pos (h.elim (fun ha => Or.inr ha) (fun hb => Or.inl hb))]

/-- C5 witness: on the default (empty) state, creating a match between the
absent players 3 and 4 fails with no state change. -/
theorem create_new_match_unavailable_noop_witness :
    ServerState.default.create_new_match (3, 4) [97] = (none, ServerState.default) :=
  create_new_match_unavailable_noop ServerState.default 3 4 [97] (Or.inl (by decide))

/-- C6: starting from a fresh match, after any sequence of guesses a final
`attempt` with the stored secret word always yields state `Solved`, and the
attempt counter equals the total number of `attempt` calls (including the
solving one) whenever that count fits in the `u32` counter. -/
theorem attempt_correct_guess_solves (ch gu : Uuid) (w : RStr) (i : Uuid) (gs : List RStr) :
    ((gs.foldl Match.attempt (Match.new ch gu w i)).attempt w).state = MatchState.Solved ∧
    (gs.length + 1 < 2 ^ 32 →
      ((gs.foldl Match.attempt (Match.new ch gu w i)).attempt w).attempts =
        gs.length + 1) := by
  constructor
  · rw [attempt_state, foldl_attempt_guess_word]
    simp [Match.new]
  · intro hlen
    rw [attempt_attempts, foldl_attempt_attempts gs _ (by norm_num [Match.new]),
      Nat.mod_add_mod]
    simp only [Match.new]
    rw [Nat.mod_eq_of_lt (by omega)]
    omega

/-- C6 witness: three wrong-then-right-then-other guesses followed by the
correct word solve the match with four recorded attempts. -/
theorem attempt_correct_guess_solves_witness :
    ((([[98], [97], [99]] : List RStr).foldl Match.attempt (Match.new 1 2 [97] 0)).attempt
        [97]).state = MatchState.Solved ∧
    ((([[98], [97], [99]] : List RStr).foldl Match.attempt (Match.new 1 2 [97] 0)).attempt
        [97]).attempts = 4 :=
  ⟨(attempt_correct_guess_solves 1 2 [97] 0 [[98], [97], [99]]).1,
    (attempt_correct_guess_solves 1 2 [97] 0 [[98], [97], [99]]).2 (by norm_num)⟩

/-- C8: `finish_match` is idempotent — a second call with the same match id
finds the id gone from active storage and leaves the available set, active
matches and finished matches unchanged. -/
theorem finish_match_idempotent (s : ServerState) (mid : Uuid) :
    (s.finish_match mid).finish_match mid = s.finish_match mid := by
  have noop : ∀ t : ServerState, List.lookup mid t.active_matches = none →
      t.finish_match mid = t := by
    intro t ht
    rw [ServerState.finish_match, ht]
  cases h : List.lookup mid s.active_matches with
  | none =>
      rw [noop s h]
      exact noop s h
  | some am =>
      refine noop _ ?_
      rw [ServerState.finish_match, h]
      exact lookup_eraseKey mid s.active_matches

/-- C9: `create_new_match` does not require distinct participants — for an
available player `a`, a self match `(a, a)` succeeds and stores an `Active`
match whose challenger and guesser are both `a`. -/
theorem create_new_match_self_match (s : ServerState) (a : Uuid) (w : RStr)
    (h : a ∈ s.available_players) :
    (s.create_new_match (a, a) w).1 = some s.next_uuid ∧
    List.lookup s.next_uuid (s.create_new_match (a, a) w).2.active_matches =
      some (Match.new a a w s.next_uuid) ∧
    (Match.new a a w s.next_uuid).challenger = a ∧
    (Match.new a a w s.next_uuid).guesser = a ∧
    (Match.new a a w s.next_uuid).state = MatchState.Active := by
  rw [ServerState.create_new_match, if_neg (by simp [h])]
  exact ⟨rfl, lookup_insertAssoc s.next_uuid (Match.new a a w s.next_uuid) s.active_matches,
    rfl, rfl, rfl⟩

/-- C9 witness: the lone available player 5 can open a match against itself. -/
theorem create_new_match_self_match_witness :
    ((⟨[5], [], [], 0⟩ : ServerState).create_new_match (5, 5) [97]).1 = some 0 ∧
    List.lookup 0 ((⟨[5], [], [], 0⟩ : ServerState).create_new_match (5, 5) [97]).2.active_matches =
      some (Match.new 5 5 [97] 0) ∧
    (Match.new 5 5 [97] 0).challenger = 5 ∧
    (Match.new 5 5 [97] 0).guesser = 5 ∧
    (Match.new 5 5 [97] 0).state = MatchState.Active :=
  create_new_match_self_match ⟨[5], [], [], 0⟩ 5 [97] (by decide)

/-- C1 (code-bug evidence): from the default state, connected player 7
authenticates, opens a self match, authenticates again — `AnswerPassword`
re-adds it to the available set without checking that it is already in a
match — and opens a second match: player 7 is now challenger and guesser of
two distinct simultaneously active matches, violating the reachable-state
invariant. -/
theorem reauth_double_booking :
    hasDoubleBooking (runTrace [7] ServerState.default
      [(7, ClientMessage.AnswerPassword passwordBytes),
       (7, ClientMessage.RequestMatch 7 [97]),
       (7, ClientMessage.AnswerPassword passwordBytes),
       (7, ClientMessage.RequestMatch 7 [97])]) = true ∧
    (runTrace [7] ServerState.default
      [(7, ClientMessage.AnswerPassword passwordBytes),
       (7, ClientMessage.RequestMatch 7 [97]),
       (7, ClientMessage.AnswerPassword passwordBytes),
       (7, ClientMessage.RequestMatch 7 [97])]).active_matches.length = 2 := by decide

/-- C2 (counterexample): framing breaks on payloads containing the terminator
byte — `AnswerPassword "\n"` serializes to bytes containing 10, so the framed
read truncates and decoding fails; and the decoder also accepts non-canonical
bytes (`[0xcc, 0]` for `AskPassword`) whose re-encoding (`[0]`) differs. -/
theorem framing_roundtrip_fails :
    framedDecodeClient (frame (encodeClientMessage (ClientMessage.AnswerPassword [10]))) ≠
      some (ClientMessage.AnswerPassword [10]) ∧
    fromSliceServer [204, 0] = some ServerMessage.AskPassword ∧
    encodeServerMessage ServerMessage.AskPassword ≠ [204, 0] := by decide

/-- C2 (amended): decoding the encoding yields the original message for every
client and server message; the framed round trip additionally holds whenever
the serialized payload does not contain the terminator byte 10; and
re-encoding the decoded value returns the original bytes whenever the bytes
are exactly a canonical encoding. -/
theorem codec_roundtrip_amended (mc : ClientMessage) (ms : ServerMessage)
    (hc : ValidClient mc) (hs : ValidServer ms) :
    fromSliceClient (encodeClientMessage mc) = some mc ∧
    fromSliceServer (encodeServerMessage ms) = some ms ∧
    ((10 : Nat) ∉ encodeClientMessage mc →
      framedDecodeClient (frame (encodeClientMessage mc)) = some mc) ∧
    ((10 : Nat) ∉ encodeServerMessage ms →
      framedDecodeServer (frame (encodeServerMessage ms)) = some ms) ∧
    (∀ bs, bs = encodeClientMessage mc →
      (fromSliceClient bs).map encodeClientMessage = some bs) ∧
    (∀ bs, bs = encodeServerMessage ms →
      (fromSliceServer bs).map encodeServerMessage = some bs) := by
  have ec : fromSliceClient (encodeClientMessage mc) = some mc := by
    rw [fromSliceClient]
    have e := decodeClient_encode mc hc []
    rw [List.append_nil] at e
    rw [e]
    rfl
  have es : fromSliceServer (encodeServerMessage ms) = some ms := by
    rw [fromSliceServer]
    have e := decodeServer_encode ms hs []
    rw [List.append_nil] at e
    rw [e]
    rfl
  refine ⟨ec, es, fun h => framedDecodeClient_frame_encode hc h,
    fun h => framedDecodeServer_frame_encode hs h, ?_, ?_⟩
  · intro bs hbs
    subst hbs
    rw [ec]
    rfl
  · intro bs hbs
    subst hbs
    rw [es]
    rfl

/-- C2 witness: a concrete `RequestMatch` and `AssignId` round-trip through
the codec, with the framing included since their payloads avoid byte 10. -/
theorem codec_roundtrip_amended_witness :
    fromSliceClient (encodeClientMessage (ClientMessage.RequestMatch 5 [104, 105])) =
      some (ClientMessage.RequestMatch 5 [104, 105]) ∧
    fromSliceServer (encodeServerMessage (ServerMessage.AssignId 3)) =
      some (ServerMessage.AssignId 3) ∧
    framedDecodeClient (frame (encodeClientMessage (ClientMessage.RequestMatch 5 [104, 105]))) =
      some (ClientMessage.RequestMatch 5 [104, 105]) ∧
    framedDecodeServer (frame (encodeServerMessage (ServerMessage.AssignId 3))) =
      some (ServerMessage.AssignId 3) := by
  obtain ⟨h1, h2, h3, h4, h5, h6⟩ :=
    codec_roundtrip_amended (ClientMessage.RequestMatch 5 [104, 105])
      (ServerMessage.AssignId 3) (by decide) (by decide)
  exact ⟨h1, h2, h3 (by decide), h4 (by decide)⟩

/-- C3 (counterexample): players 5 and 9 are available but only 5 is still in
the registry; 5 requests a match with 9.  The match is created, the send to 9
fails, and the handler aborts: the `MatchAccepted` send to the still-connected
sender 5 never happens (no sends at all) instead of the remaining effects
completing. -/
theorem send_failure_aborts_handler :
    (react 5 (ClientMessage.RequestMatch 9 [97]) [5] ⟨[5, 9], [], [], 0⟩).ok = false ∧
    (react 5 (ClientMessage.RequestMatch 9 [97]) [5] ⟨[5, 9], [], [], 0⟩).sends = [] ∧
    (react 5 (ClientMessage.RequestMatch 9 [97]) [5] ⟨[5, 9], [], [], 0⟩).state.active_matches =
      [(0, Match.new 5 9 [97] 0)] := by decide

/-- C3 (amended): a failed send makes the handler return early through the
error path instead of completing its remaining effects: effects already
performed persist (the match is created, the guess is recorded) but every
remaining send — including to recipients still in the registry — and every
remaining state mutation (such as finishing a solved match) is skipped. -/
theorem send_failure_abort_amended (s : ServerState) (conns : List Uuid)
    (pid opp : Uuid) (w : RStr) (mid : Uuid) (am : Match) (guess : RStr) :
    (opp ∈ s.available_players → pid ∈ s.available_players → opp ∉ conns →
      (react pid (ClientMessage.RequestMatch opp w) conns s).sends = [] ∧
      (react pid (ClientMessage.RequestMatch opp w) conns s).ok = false ∧
      List.lookup s.next_uuid
        (react pid (ClientMessage.RequestMatch opp w) conns s).state.active_matches =
        some (Match.new pid opp w s.next_uuid)) ∧
    (List.lookup mid s.active_matches = some am →
      (am.attempt guess).state = MatchState.Solved →
      (am.attempt guess).challenger ∉ conns →
      (react pid (ClientMessage.GuessAttempt mid guess) conns s).sends = [] ∧
      (react pid (ClientMessage.GuessAttempt mid guess) conns s).ok = false ∧
      List.lookup mid
        (react pid (ClientMessage.GuessAttempt mid guess) conns s).state.active_matches =
        some (am.attempt guess)) := by
  constructor
  · intro h1 h2 h3
    have hc : s.create_new_match (pid, opp) w =
        (some s.next_uuid,
          { s with
              active_matches :=
                insertAssoc s.next_uuid (Match.new pid opp w s.next_uuid) s.active_matches
              available_players := removeSet opp (removeSet pid s.available_players)
              next_uuid := s.next_uuid + 1 }) := by
      rw [ServerState.create_new_match, if_neg (by simp [h1, h2])]
      simp [Match.new]
    simp [react, hc, h3, lookup_insertAssoc]
  · intro hm hsol hch
    simp [react, hm, hsol, hch, lookup_updateAssoc hm (am.attempt guess)]

/-- C3 amended witness: with players 5 and 9 available, 9 and challenger 8
not registered, a `RequestMatch` from 5 creates the match but sends nothing,
and a solving `GuessAttempt` on match 3 records the guess but neither sends
nor finishes the match. -/
theorem send_failure_abort_amended_witness :
    (react 5 (ClientMessage.RequestMatch 9 [97]) [5]
        ⟨[5, 9], [(3, ⟨3, 8, 2, 0, [], [97], MatchState.Active⟩)], [], 0⟩).sends = [] ∧
    (react 5 (ClientMessage.RequestMatch 9 [97]) [5]
        ⟨[5, 9], [(3, ⟨3, 8, 2, 0, [], [97], MatchState.Active⟩)], [], 0⟩).ok = false ∧
    (react 5 (ClientMessage.GuessAttempt 3 [97]) [5]
        ⟨[5, 9], [(3, ⟨3, 8, 2, 0, [], [97], MatchState.Active⟩)], [], 0⟩).sends = [] ∧
    List.lookup 3 (react 5 (ClientMessage.GuessAttempt 3 [97]) [5]
        ⟨[5, 9], [(3, ⟨3, 8, 2, 0, [], [97], MatchState.Active⟩)], [], 0⟩).state.active_matches =
      some ((⟨3, 8, 2, 0, [], [97], MatchState.Active⟩ : Match).attempt [97]) := by
  obtain ⟨ha, hb⟩ :=
    send_failure_abort_amended
      ⟨[5, 9], [(3, ⟨3, 8, 2, 0, [], [97], MatchState.Active⟩)], [], 0⟩ [5] 5 9 [97] 3
      ⟨3, 8, 2, 0, [], [97], MatchState.Active⟩ [97]
  obtain ⟨h1, h2, h3⟩ := ha (by decide) (by decide) (by decide)
  obtain ⟨h4, h5, h6⟩ := hb (by decide) (by decide) (by decide)
  exact ⟨h1, h2, h4, h6⟩

/-- C7 (counterexample): guesser 2 of the active match 3 (challenger 1, both
registered) gives up; `MatchEnded` goes only to the guesser — the challenger
receives nothing, although the match ends. -/
theorem giveup_skips_challenger :
    (react 2 (ClientMessage.GiveUp 3) [1, 2]
        ⟨[], [(3, ⟨3, 1, 2, 0, [], [97], MatchState.Active⟩)], [], 9⟩).sends =
      [(2, ServerMessage.MatchEnded 3 0 0 false)] ∧
    (∀ x ∈ (react 2 (ClientMessage.GiveUp 3) [1, 2]
        ⟨[], [(3, ⟨3, 1, 2, 0, [], [97], MatchState.Active⟩)], [], 9⟩).sends, x.1 ≠ 1) ∧
    List.lookup 3 (react 2 (ClientMessage.GiveUp 3) [1, 2]
        ⟨[], [(3, ⟨3, 1, 2, 0, [], [97], MatchState.Active⟩)], [], 9⟩).state.active_matches =
      none := by decide

/-- The first `LeaveGame` loop, characterized on any input list whose
guesser-side challengers are all registered: every match whose guesser is the
leaver is given up in place, one `MatchEnded` goes to that match's challenger
(the leaver itself for a self match), and its id is collected; other matches
are untouched. -/
theorem leaveGuesserPass_spec (conns : List Uuid) (pid : Uuid) (l : List (Uuid × Match))
    (h : ∀ p ∈ l, p.2.guesser = pid → p.2.challenger ∈ conns) :
    leaveGuesserPass conns pid l =
      (l.map (fun p => if p.2.guesser = pid then (p.1, p.2.give_up) else p),
        (l.filter (fun p => p.2.guesser = pid)).map
          (fun p =>
            (p.2.challenger,
              ServerMessage.MatchEnded p.2.id p.2.attempts (hintCount p.2) false)),
        (l.filter (fun p => p.2.guesser = pid)).map (fun p => p.2.id),
        true) := by
  induction l with
  | nil => rfl
  | cons p l ih =>
      obtain ⟨k, m⟩ := p
      have hh := h (k, m) (by simp)
      have ht : ∀ q ∈ l, q.2.guesser = pid → q.2.challenger ∈ conns :=
        fun q hq => h q (by simp [hq])
      by_cases hg : m.guesser = pid
      · have hcc : m.challenger ∈ conns := hh hg
        simp [leaveGuesserPass, hg, hcc, ih ht, List.filter_cons, Match.give_up, hintCount]
      · simp [leaveGuesserPass, hg, ih ht, List.filter_cons]

/-- The second `LeaveGame` loop, characterized on any input list whose
challenger-side guessers are all registered: every match whose challenger is
the leaver is cancelled in place and one `MatchEnded` goes to that match's
guesser (the leaver itself for a self match). -/
theorem leaveChallengerPass_spec (conns : List Uuid) (pid : Uuid) (l : List (Uuid × Match))
    (h : ∀ p ∈ l, p.2.challenger = pid → p.2.guesser ∈ conns) :
    leaveChallengerPass conns pid l =
      (l.map (fun p => if p.2.challenger = pid then (p.1, p.2.cancel) else p),
        (l.filter (fun p => p.2.challenger = pid)).map
          (fun p =>
            (p.2.guesser,
              ServerMessage.MatchEnded p.2.id p.2.attempts (hintCount p.2) false)),
        (l.filter (fun p => p.2.challenger = pid)).map (fun p => p.2.id),
        true) := by
  induction l with
  | nil => rfl
  | cons p l ih =>
      obtain ⟨k, m⟩ := p
      have hh := h (k, m) (by simp)
      have ht : ∀ q ∈ l, q.2.challenger = pid → q.2.guesser ∈ conns :=
        fun q hq => h q (by simp [hq])
      by_cases hc : m.challenger = pid
      · have hgc : m.guesser ∈ conns := hh hc
        simp [leaveChallengerPass, hc, hgc, ih ht, List.filter_cons, Match.cancel, hintCount]
      · simp [leaveChallengerPass, hc, ih ht, List.filter_cons]

/-- Giving up the guesser-side matches in place changes no field the second
loop reads, so the second loop's registry precondition transfers from the
original list to the updated one. -/
theorem mapped_give_up_challenger_mem (conns : List Uuid) (pid : Uuid)
    (l : List (Uuid × Match))
    (h : ∀ p ∈ l, p.2.challenger = pid → p.2.guesser ∈ conns) :
    ∀ p ∈ l.map (fun p => if p.2.guesser = pid then (p.1, p.2.give_up) else p),
      p.2.challenger = pid → p.2.guesser ∈ conns := by
  intro p hp
  rw [List.mem_map] at hp
  obtain ⟨q, hq, rfl⟩ := hp
  by_cases hg : q.2.guesser = pid
  · rw [if_pos hg]
    intro hch
    exact h q hq (by simpa [Match.give_up] using hch)
  · rw [if_neg hg]
    exact h q hq

theorem give_up_challenger (m : Match) : (m.give_up).challenger = m.challenger := rfl

theorem give_up_guesser (m : Match) : (m.give_up).guesser = m.guesser := rfl

theorem give_up_id (m : Match) : (m.give_up).id = m.id := rfl

theorem give_up_attempts (m : Match) : (m.give_up).attempts = m.attempts := rfl

theorem hintCount_give_up (m : Match) : hintCount (m.give_up) = hintCount m := rfl

/-- The `MatchEnded` messages of the second loop are the same whether computed
over the give-up-updated list or the original one: `give_up` preserves every
field they mention and the challenger filter. -/
theorem leaveChallengerPass_msgs_give_up (pid : Uuid) (l : List (Uuid × Match)) :
    ((l.map (fun p => if p.2.guesser = pid then (p.1, p.2.give_up) else p)).filter
        (fun p => p.2.challenger = pid)).map
      (fun p =>
        (p.2.guesser, ServerMessage.MatchEnded p.2.id p.2.attempts (hintCount p.2) false)) =
    (l.filter (fun p => p.2.challenger = pid)).map
      (fun p =>
        (p.2.guesser, ServerMessage.MatchEnded p.2.id p.2.attempts (hintCount p.2) false)) := by
  induction l with
  | nil => rfl
  | cons p l ih =>
      obtain ⟨k, m⟩ := p
      by_cases hg : m.guesser = pid <;> by_cases hc : m.challenger = pid <;>
        simp [List.filter_cons, List.map_cons, give_up_challenger, give_up_guesser,
          give_up_id, give_up_attempts, hintCount_give_up, hg, hc, ih]

/-- C7 (amended): on a solving guess `MatchEnded` is sent to both
participants; on `GiveUp` only the guesser receives `MatchEnded`; on
`LeaveGame` every active match whose guesser is the leaver sends one
`MatchEnded` to that match's challenger and every active match whose
challenger is the leaver sends one `MatchEnded` to that match's guesser, in
list order, followed by a single `Disconnect` to the leaver — so for an
ordinary match only the other participant is notified, while for a self match
the leaver is both participants and receives `MatchEnded` from both loops. -/
theorem match_ended_recipients_amended (s : ServerState) (conns : List Uuid)
    (pid mid : Uuid) (am : Match) (guess : RStr)
    (hm : List.lookup mid s.active_matches = some am)
    (hc : am.challenger ∈ conns) (hg : am.guesser ∈ conns) (hp : pid ∈ conns) :
    ((am.attempt guess).state = MatchState.Solved →
      (react pid (ClientMessage.GuessAttempt mid guess) conns s).sends =
        [(am.challenger, ServerMessage.MatchEnded mid (am.attempt guess).attempts
            (hintCount (am.attempt guess)) true),
          (am.guesser, ServerMessage.MatchEnded mid (am.attempt guess).attempts
            (hintCount (am.attempt guess)) true)]) ∧
    (pid = am.guesser →
      (react pid (ClientMessage.GiveUp mid) conns s).sends =
        [(am.guesser, ServerMessage.MatchEnded mid am.attempts (hintCount am) false)]) ∧
    ((∀ p ∈ s.active_matches, p.2.guesser = pid → p.2.challenger ∈ conns) →
      (∀ p ∈ s.active_matches, p.2.challenger = pid → p.2.guesser ∈ conns) →
      (react pid ClientMessage.LeaveGame conns s).sends =
        (s.active_matches.filter (fun p => p.2.guesser = pid)).map
          (fun p =>
            (p.2.challenger,
              ServerMessage.MatchEnded p.2.id p.2.attempts (hintCount p.2) false)) ++
        (s.active_matches.filter (fun p => p.2.challenger = pid)).map
          (fun p =>
            (p.2.guesser,
              ServerMessage.MatchEnded p.2.id p.2.attempts (hintCount p.2) false)) ++
        [(pid, ServerMessage.Disconnect)]) := by
  refine ⟨?_, ?_, ?_⟩
  · intro hsol
    simp only [react, hm, hsol]
    rw [if_pos (by rw [attempt_challenger]; exact hc),
      if_pos (by rw [attempt_guesser]; exact hg)]
    rw [attempt_challenger, attempt_guesser]
  · intro hpg
    simp only [react, hm]
    rw [if_neg (by simp [hpg]), if_pos (by simp [Match.give_up, hg])]
    simp [Match.give_up, hintCount, hpg]
  · intro h1 h2
    have e1 := leaveGuesserPass_spec conns pid s.active_matches h1
    have e2 := leaveChallengerPass_spec conns pid
      (s.active_matches.map (fun p => if p.2.guesser = pid then (p.1, p.2.give_up) else p))
      (mapped_give_up_challenger_mem conns pid s.active_matches h2)
    have e3 := leaveChallengerPass_msgs_give_up pid s.active_matches
    simp only [react, e1, e2]
    simp [hp, e3]

/-- C7 amended witness: leaver 2 is guesser of match 3 (challenger 1),
challenger of match 4 (guesser 5), and both sides of the self match 5.  A
solving guess on match 3 notifies both, `GiveUp` notifies only the guesser,
and `LeaveGame` notifies 1 and 5 once, the leaver twice (self match), then
disconnects the leaver. -/
theorem match_ended_recipients_amended_witness :
    (react 2 (ClientMessage.GuessAttempt 3 [97]) [1, 2, 5]
        ⟨[], [(3, ⟨3, 1, 2, 0, [], [97], MatchState.Active⟩),
              (4, ⟨4, 2, 5, 0, [], [97], MatchState.Active⟩),
              (5, ⟨5, 2, 2, 0, [], [97], MatchState.Active⟩)], [], 9⟩).sends =
      [(1, ServerMessage.MatchEnded 3 1 0 true), (2, ServerMessage.MatchEnded 3 1 0 true)] ∧
    (react 2 (ClientMessage.GiveUp 3) [1, 2, 5]
        ⟨[], [(3, ⟨3, 1, 2, 0, [], [97], MatchState.Active⟩),
              (4, ⟨4, 2, 5, 0, [], [97], MatchState.Active⟩),
              (5, ⟨5, 2, 2, 0, [], [97], MatchState.Active⟩)], [], 9⟩).sends =
      [(2, ServerMessage.MatchEnded 3 0 0 false)] ∧
    (react 2 ClientMessage.LeaveGame [1, 2, 5]
        ⟨[], [(3, ⟨3, 1, 2, 0, [], [97], MatchState.Active⟩),
              (4, ⟨4, 2, 5, 0, [], [97], MatchState.Active⟩),
              (5, ⟨5, 2, 2, 0, [], [97], MatchState.Active⟩)], [], 9⟩).sends =
      [(1, ServerMessage.MatchEnded 3 0 0 false), (2, ServerMessage.MatchEnded 5 0 0 false),
        (5, ServerMessage.MatchEnded 4 0 0 false), (2, ServerMessage.MatchEnded 5 0 0 false),
        (2, ServerMessage.Disconnect)] := by
  obtain ⟨h1, h2, h3⟩ :=
    match_ended_recipients_amended
      ⟨[], [(3, ⟨3, 1, 2, 0, [], [97], MatchState.Active⟩),
            (4, ⟨4, 2, 5, 0, [], [97], MatchState.Active⟩),
            (5, ⟨5, 2, 2, 0, [], [97], MatchState.Active⟩)], [], 9⟩ [1, 2, 5] 2 3
      ⟨3, 1, 2, 0, [], [97], MatchState.Active⟩ [97]
      (by decide) (by decide) (by decide) (by decide)
  exact ⟨(h1 (by decide)).trans (by decide), h2 (by decide),
    (h3 (by decide) (by decide)).trans (by decide)⟩

/-- C10: `SendHint` performs no sender check — from any sender, a hint for an
active match is appended and `MatchHint` is delivered to the match's guesser;
and no `SendHint` handling ever emits `BadRequest PermissionDenied`. -/
theorem send_hint_no_permission_check (s : ServerState) (conns : List Uuid)
    (sender mid : Uuid) (hint : RStr) (am : Match)
    (hm : List.lookup mid s.active_matches = some am) (hg : am.guesser ∈ conns) :
    (react sender (ClientMessage.SendHint mid hint) conns s).sends =
      [(am.guesser, ServerMessage.MatchHint mid hint)] ∧
    List.lookup mid
      (react sender (ClientMessage.SendHint mid hint) conns s).state.active_matches =
      some (am.add_hint hint) ∧
    (∀ (s2 : ServerState) (conns2 : List Uuid) (p2 mid2 : Uuid) (h2 : RStr)
        (x : Uuid × ServerMessage),
      x ∈ (react p2 (ClientMessage.SendHint mid2 h2) conns2 s2).sends →
      x.2 ≠ ServerMessage.BadRequest ClientRequestError.PermissionDenied) := by
  refine ⟨?_, ?_, ?_⟩
  · simp [react, hm, add_hint_guesser, hg]
  · simp only [react, hm]
    rw [if_pos (by rw [add_hint_guesser]; exact hg)]
    exact lookup_updateAssoc hm (am.add_hint hint)
  · intro s2 conns2 p2 mid2 h2 x hx
    simp only [react] at hx
    cases hm2 : List.lookup mid2 s2.active_matches with
    | some am2 =>
        rw [hm2] at hx
        by_cases hgc : (am2.add_hint h2).guesser ∈ conns2
        · simp [hgc] at hx
          rw [hx]
          simp
        · simp [hgc] at hx
    | none =>
        rw [hm2] at hx
        by_cases hpc : p2 ∈ conns2
        · simp [hpc] at hx
          rw [hx]
          simp
        · simp [hpc] at hx

/-- C10 witness: player 9, not a participant of match 3 at all, successfully
sends a hint that is stored and delivered to guesser 2. -/
theorem send_hint_no_permission_check_witness :
    (react 9 (ClientMessage.SendHint 3 [104]) [1, 2, 9]
        ⟨[], [(3, ⟨3, 1, 2, 0, [], [97], MatchState.Active⟩)], [], 9⟩).sends =
      [(2, ServerMessage.MatchHint 3 [104])] ∧
    List.lookup 3 (react 9 (ClientMessage.SendHint 3 [104]) [1, 2, 9]
        ⟨[], [(3, ⟨3, 1, 2, 0, [], [97], MatchState.Active⟩)], [], 9⟩).state.active_matches =
      some ((⟨3, 1, 2, 0, [], [97], MatchState.Active⟩ : Match).add_hint [104]) := by
  obtain ⟨h1, h2, h3⟩ :=
    send_hint_no_permission_check
      ⟨[], [(3, ⟨3, 1, 2, 0, [], [97], MatchState.Active⟩)], [], 9⟩ [1, 2, 9] 9 3 [104]
      ⟨3, 1, 2, 0, [], [97], MatchState.Active⟩ (by decide) (by decide)
  exact ⟨h1, h2⟩

end Luxonis
